import Mathlib

/-!
Verification of the server-side async I/O core (`server/async.c`).

The C code is shallowly embedded: the `struct async` state is a Lean
structure, pointer fields become `Option` values, and every operation is a
pure function from the pre-state to the post-state together with the list
of collaborator calls (APC queueing, reselect, completion posts, ...) that
the C function performs, in program order.  Machine integers (NTSTATUS
values, sizes) are modelled as `Nat`; all status constants fit in 32 bits.
-/

namespace WineAsync

/-- NTSTATUS success code. -/
def STATUS_SUCCESS : Nat := 0

/-- NTSTATUS timeout code (0x102). -/
def STATUS_TIMEOUT : Nat := 0x102

/-- NTSTATUS pending code (0x103). -/
def STATUS_PENDING : Nat := 0x103

/-- NTSTATUS alerted code (0x101). -/
def STATUS_ALERTED : Nat := 0x101

/-- NTSTATUS invalid-parameter error (0xC000000D). -/
def STATUS_INVALID_PARAMETER : Nat := 0xC000000D

/-- NTSTATUS no-memory error (0xC0000017). -/
def STATUS_NO_MEMORY : Nat := 0xC0000017

/-- NTSTATUS cancelled error (0xC0000120). -/
def STATUS_CANCELLED : Nat := 0xC0000120

/-- NTSTATUS not-found error (0xC0000225). -/
def STATUS_NOT_FOUND : Nat := 0xC0000225

/-- NTSTATUS handles-closed error (0xC0000235). -/
def STATUS_HANDLES_CLOSED : Nat := 0xC0000235

/-- Completion-notification-mode flag tested in `async_set_result`. -/
def FILE_SKIP_COMPLETION_PORT_ON_SUCCESS : Nat := 1

/-- The `NT_ERROR` macro: the two top bits of a 32-bit status are `11`. -/
def NT_ERROR (s : Nat) : Bool := s >>> 30 == 3

/-- `struct iosb` (I/O status block): status, byte count, and the two
owned buffers.  A buffer is `none` when the C pointer is null. -/
structure Iosb where
  status : Nat
  result : Nat
  in_size : Nat
  in_data : Option (List Nat)
  out_size : Nat
  out_data : Option (List Nat)
deriving DecidableEq, Repr

/-- `async_data_t`: the client-supplied descriptor.  `apc` and
`apc_context` and `event` are client pointers / handles, 0 for null. -/
structure AsyncData where
  user : Nat
  iosb : Nat
  apc : Nat
  apc_context : Nat
  event : Nat
deriving DecidableEq, Repr

/-- `struct async`.  Collaborator pointers (`fd`, `event`, `completion`,
`timeout`, the queue, the completion callback) are opaque identifiers
wrapped in `Option`; the bit-field flags are `Bool`. -/
structure Async where
  thread : Nat
  queue : Option Nat
  fd : Option Nat
  timeout : Option Nat
  timeout_status : Nat
  event : Option Nat
  data : AsyncData
  iosb : Option Iosb
  wait_handle : Nat
  signaled : Bool
  pending : Bool
  direct_result : Bool
  alerted : Bool
  terminated : Bool
  unknown_status : Bool
  completion : Option Nat
  comp_key : Nat
  comp_flags : Nat
  completion_callback : Option Nat
deriving DecidableEq, Repr

/-- Payload of a queued APC (`apc_call_t` variants used by this file). -/
inductive ApcCall where
  | asyncIo (user sb status : Nat)
  | userApc (func ctx iosb : Nat)
deriving DecidableEq, Repr

/-- One outgoing collaborator call, recorded in program order. -/
inductive Ev where
  | queueApc (tid : Nat) (call : ApcCall)
  | reselect (f q : Nat)
  | addCompletionEv (c key cvalue status info : Nat)
  | setEventEv (e : Nat)
  | setFdSignaledEv (f v : Nat)
  | wakeUpEv
  | callbackEv (cb : Nat)
  | closeHandleEv (h : Nat)
  | removeTimeoutEv (t : Nat)
deriving DecidableEq, Repr

/-- Read-only view of the collaborator state the core queries:
`fd_get_completion`, `get_fd_user` and `is_fd_overlapped`. -/
structure Env where
  fdCompletion : Nat → Option (Nat × Nat)
  fdUser : Nat → Nat
  fdOverlapped : Nat → Bool

/-- `async_reselect`: calls `fd_reselect_async` when both the queue and
the fd pointer are set. -/
def async_reselect (a : Async) : List Ev :=
  match a.queue, a.fd with
  | some q, some f => [Ev.reselect f q]
  | _, _ => []

/-- The iosb status update done by `async_terminate`: the status is
written only if the block is still pending. -/
def termIosb (i : Iosb) (status : Nat) : Iosb :=
  if i.status = STATUS_PENDING then { i with status := status } else i

/-- `async_terminate`: returns the post-state and the collaborator calls
made (the APC, if any, then the reselect).  The reference-count
manipulations (`grab_object`/`release_object`) are not modelled. -/
def async_terminate (a : Async) (status : Nat) : Async × List Ev :=
  if a.terminated then (a, [])
  else
    let a1 : Async :=
      { a with terminated := true
               iosb := a.iosb.map (fun i => termIosb i status)
               alerted := if status = STATUS_ALERTED then true else a.alerted }
    let apcs : List Ev :=
      if a1.direct_result then []
      else
        let eff : Nat :=
          match a1.iosb with
          | some i => if i.result ≠ 0 ∨ i.out_data ≠ none then STATUS_ALERTED else status
          | none => status
        [Ev.queueApc a1.thread (ApcCall.asyncIo a1.data.user a1.data.iosb eff)]
    (a1, apcs ++ async_reselect a1)

/-- Projection of a call trace to the APCs queued on it. -/
def apc_events (evs : List Ev) : List (Nat × ApcCall) :=
  evs.filterMap (fun e =>
    match e with
    | Ev.queueApc tid c => some (tid, c)
    | _ => none)

/-- The effective status carried by the `APC_ASYNC_IO` payload: `ALERTED`
when the iosb exists and holds a nonzero result or output data, else the
terminating status (lines 183-189 of `async.c`). -/
def effective_status (a : Async) (s : Nat) : Nat :=
  match a.iosb with
  | some i => if i.result ≠ 0 ∨ i.out_data ≠ none then STATUS_ALERTED else s
  | none => s

/-- `add_async_completion`: lazily resolve the completion port through the
fd, then post to it if present. -/
def add_async_completion (env : Env) (a : Async) (cvalue status info : Nat) :
    Async × List Ev :=
  let a1 : Async :=
    if a.completion = none then
      match a.fd with
      | some f =>
        match env.fdCompletion f with
        | some ck => { a with completion := some ck.1, comp_key := ck.2 }
        | none => a
      | none => a
    else a
  match a1.completion with
  | some c => (a1, [Ev.addCompletionEv c a1.comp_key cvalue status info])
  | none => (a1, [])

/-- Body of `async_set_result` once the object is known to be an async.
`none` models the `assert( async->terminated )` failing.  The two arms are
the restart-from-alerted transition and the finalization fan-out. -/
def async_set_result_async (env : Env) (a : Async) (status total : Nat) :
    Option (Async × List Ev) :=
  if a.terminated = false then none
  else if a.alerted = true ∧ status = STATUS_PENDING then
    let a1 : Async := { a with terminated := false, alerted := false }
    some (a1, async_reselect a1)
  else
    let evT : List Ev :=
      match a.timeout with
      | some t => [Ev.removeTimeoutEv t]
      | none => []
    let a1 : Async :=
      { a with timeout := none, terminated := true,
               iosb := a.iosb.map (fun i => { i with status := status }) }
    let pc : Async × List Ev :=
      if a1.data.apc ≠ 0 then
        (a1, [Ev.queueApc a1.thread
                (ApcCall.userApc a1.data.apc a1.data.apc_context a1.data.iosb)])
      else if a1.data.apc_context ≠ 0 ∧
              (a1.pending = true ∨ a1.comp_flags &&& FILE_SKIP_COMPLETION_PORT_ON_SUCCESS = 0) then
        add_async_completion env a1 a1.data.apc_context status total
      else (a1, [])
    let a2 := pc.1
    let evE : List Ev :=
      match a2.event with
      | some e => [Ev.setEventEv e]
      | none =>
        match a2.fd with
        | some f => [Ev.setFdSignaledEv f 1]
        | none => []
    let pw : Async × List Ev :=
      if a2.signaled = false then ({ a2 with signaled := true }, [Ev.wakeUpEv])
      else (a2, [])
    let a3 := pw.1
    let evCb : List Ev :=
      match a3.completion_callback with
      | some cb => [Ev.callbackEv cb]
      | none => []
    let a4 : Async := { a3 with completion_callback := none }
    let evR := async_reselect a4
    let a5 : Async := if a4.queue ≠ none then { a4 with fd := none, queue := none } else a4
    some (a5, evT ++ pc.2 ++ evE ++ pw.2 ++ evCb ++ evR)

/-- A generic server object as seen by `async_set_result`'s entry point:
either a genuine async (its `ops` table is `async_ops`) or some other
object, identified only by a tag. -/
inductive ServerObject where
  | asyncObj (a : Async)
  | otherObj (tag : Nat)
deriving DecidableEq, Repr

/-- `async_set_result`, public entry point over an arbitrary object: the
`obj->ops != &async_ops` guard returns immediately for non-asyncs. -/
def async_set_result (env : Env) (obj : ServerObject) (status total : Nat) :
    Option (ServerObject × List Ev) :=
  match obj with
  | ServerObject.otherObj t => some (ServerObject.otherObj t, [])
  | ServerObject.asyncObj a =>
    (async_set_result_async env a status total).map
      (fun p => (ServerObject.asyncObj p.1, p.2))

/-- `queue_async`: releases the fd reference (pointer kept), records the
queue, appends to it, and clears the fd's signaled flag.  `none` models
the null-fd dereference. -/
def queue_async (q : Nat) (a : Async) : Option (Async × List Ev) :=
  match a.fd with
  | none => none
  | some f => some ({ a with queue := some q }, [Ev.setFdSignaledEv f 0])

/-- The per-async body of `free_async_queue`: capture the completion port
through the fd if still unset, null the fd, terminate with
`HANDLES_CLOSED`, then null the queue pointer. -/
def free_async_queue_step (env : Env) (a : Async) : Async × List Ev :=
  let a0 : Async :=
    if a.completion = none then
      match a.fd with
      | some f =>
        match env.fdCompletion f with
        | some ck => { a with completion := some ck.1, comp_key := ck.2 }
        | none => a
      | none => a
    else a
  let a1 : Async := { a0 with fd := none }
  let p := async_terminate a1 STATUS_HANDLES_CLOSED
  ({ p.1 with queue := none }, p.2)

/-- `free_async_queue` over the queue contents, head first. -/
def free_async_queue (env : Env) : List Async → List Async × List Ev
  | [] => ([], [])
  | a :: r =>
    let p := free_async_queue_step env a
    let q := free_async_queue env r
    (p.1 :: q.1, p.2 ++ q.2)

/-- `set_async_pending`. -/
def set_async_pending (a : Async) (signal : Bool) : Async × List Ev :=
  if a.terminated = false then
    let a1 : Async := { a with pending := true, unknown_status := false }
    if signal = true ∧ a.signaled = false then
      ({ a1 with signaled := true }, [Ev.wakeUpEv])
    else (a1, [])
  else (a, [])

/-- `async_set_unknown_status`. -/
def async_set_unknown_status (a : Async) : Async :=
  { a with unknown_status := true, direct_result := false }

/-- `async_set_timeout`: `t` is the newly armed timer (`none` for
`TIMEOUT_INFINITE`); any previous timer is removed first. -/
def async_set_timeout (a : Async) (t : Option Nat) (status : Nat) : Async × List Ev :=
  let ev : List Ev :=
    match a.timeout with
    | some u => [Ev.removeTimeoutEv u]
    | none => []
  ({ a with timeout := t, timeout_status := status }, ev)

/-- `async_request_complete`: install the result into a still-pending
iosb and terminate; a no-op (beyond freeing the buffer) if the iosb is no
longer pending.  `none` models the null-iosb dereference. -/
def async_request_complete (a : Async) (status result out_size : Nat)
    (out_data : Option (List Nat)) : Option (Async × List Ev) :=
  match a.iosb with
  | none => none
  | some i =>
    if i.status ≠ STATUS_PENDING then some (a, [])
    else
      let a1 : Async :=
        { a with iosb := some { i with status := status, result := result,
                                       out_size := out_size, out_data := out_data } }
      some (async_terminate a1 status)

/-- Result of `async_handoff`: post-state, the status passed to the final
`set_error`, the returned handle, the `*result` write (if any), the reply
buffer detached from the iosb (with its size), and the collaborator
calls. -/
structure HandoffOut where
  async : Async
  err : Nat
  ret : Nat
  result : Option Nat
  reply : Option (List Nat × Nat)
  evs : List Ev
deriving DecidableEq, Repr

/-- The final third of `async_handoff` (from the `iosb->status` test at
line 330 of `async.c` to the closing `set_error`/`return`), split out so
its invariant — the error returned is the final iosb status — can be
stated on its own.  `a2` is the async after the earlier steps, `evs1` the
calls they already made, `rep` the detached reply buffer. -/
def handoff_tail (env : Env) (fb : Bool) (a2 : Async) (evs1 : List Ev)
    (rep : Option (List Nat × Nat)) : Option HandoffOut :=
  match a2.iosb with
  | none => none
  | some i2 =>
    if i2.status ≠ STATUS_PENDING then
      some { async := { a2 with signaled := true }, err := i2.status,
             ret := a2.wait_handle, result := some i2.result, reply := rep,
             evs := evs1 }
    else
      let a3 : Async := { a2 with direct_result := false, pending := true }
      let closeIt : Bool :=
        !fb && (match a3.fd with
                | some f => env.fdOverlapped f
                | none => false)
      if closeIt = true then
        some { async := { a3 with wait_handle := 0 }, err := i2.status, ret := 0,
               result := none, reply := rep,
               evs := evs1 ++ [Ev.closeHandleEv a3.wait_handle] }
      else
        some { async := a3, err := i2.status, ret := a3.wait_handle,
               result := none, reply := rep, evs := evs1 }

/-- The middle step of `async_handoff` on the `get_error() == PENDING`
path: when the iosb already carries a result, detach its output buffer
to the reply. -/
def handoff_detach (a1 : Async) : Async × Option (List Nat × Nat) :=
  match a1.iosb with
  | some i =>
    if i.status ≠ STATUS_PENDING then
      match i.out_data with
      | some d => ({ a1 with iosb := some { i with out_data := none } },
                   some (d, i.out_size))
      | none => (a1, none)
    else (a1, none)
  | none => (a1, none)

/-- `async_handoff`; `err0` is the thread's last-error (`get_error()`) on
entry.  `none` models the null-iosb dereference on the paths past the
first two early returns. -/
def async_handoff (env : Env) (a : Async) (force_blocking : Bool) (err0 : Nat) :
    Option HandoffOut :=
  if a.unknown_status = true then
    some { async := a, err := STATUS_PENDING, ret := a.wait_handle,
           result := none, reply := none, evs := [] }
  else if a.pending = false ∧ NT_ERROR err0 = true then
    some { async := { a with wait_handle := 0 }, err := err0, ret := 0,
           result := none, reply := none, evs := [Ev.closeHandleEv a.wait_handle] }
  else
    match a.iosb with
    | none => none
    | some _ =>
      let p1 : Async × List Ev :=
        if err0 ≠ STATUS_PENDING then async_terminate a err0 else (a, [])
      let p2 : Async × Option (List Nat × Nat) :=
        if err0 = STATUS_PENDING then handoff_detach p1.1 else (p1.1, none)
      handoff_tail env force_blocking p2.1 p1.2 p2.2

/-- `async_wake_up`: walk the queue head first, terminating each entry;
an `ALERTED` wake-up stops after the first entry.  The second component
logs the `async_terminate` calls made, in order. -/
def async_wake_up : List Async → Nat → List Async × List (Async × Nat)
  | [], _ => ([], [])
  | a :: r, s =>
    let p := async_terminate a s
    if s = STATUS_ALERTED then (p.1 :: r, [(a, s)])
    else
      let q := async_wake_up r s
      (p.1 :: q.1, (a, s) :: q.2)

/-- The filter test of the static `cancel_async` scan: every filter that
is present must match (fd user object, owning thread, iosb cookie). -/
def match_filters (env : Env) (objF thrF : Option Nat) (iosbF : Nat) (a : Async) : Bool :=
  (match objF with
   | none => true
   | some o =>
     match a.fd with
     | some f => env.fdUser f == o
     | none => false) &&
  (match thrF with
   | none => true
   | some t => a.thread == t) &&
  (iosbF == 0 || a.data.iosb == iosbF)

/-- Modelled from the spec: `fd_cancel_async` lives in the fd layer
(`server/fd.c`, not under `src/`); per the spec it "synchronously
re-enters `async_terminate` with CANCELLED". -/
def fd_cancel_async (a : Async) : Async × List Ev :=
  async_terminate a STATUS_CANCELLED

/-- A scan candidate: not yet terminated and matching all filters. -/
def cancel_candidate (env : Env) (objF thrF : Option Nat) (iosbF : Nat) (a : Async) : Bool :=
  !a.terminated && match_filters env objF thrF iosbF a

/-- One pass of the `restart:` loop in `cancel_async`: cancel the first
candidate, if any. -/
def cancel_pass (P : Async → Bool) : List Async → Option (List Async)
  | [] => none
  | a :: r =>
    if P a then some ((fd_cancel_async a).1 :: r)
    else (cancel_pass P r).map (fun r' => a :: r')

/-- The `goto restart` loop, fuelled; each successful pass terminates one
candidate, so any fuel at least the candidate count is enough. -/
def cancel_loop (P : Async → Bool) : Nat → List Async → List Async × Nat
  | 0, l => (l, 0)
  | Nat.succ fuel, l =>
    match cancel_pass P l with
    | none => (l, 0)
    | some l' =>
      let p := cancel_loop P fuel l'
      (p.1, p.2 + 1)

/-- Static `cancel_async( process, obj, thread, iosb )` over the process
async list; returns the updated list and the `woken` count. -/
def cancel_async (env : Env) (objF thrF : Option Nat) (iosbF : Nat) (l : List Async) :
    List Async × Nat :=
  cancel_loop (cancel_candidate env objF thrF iosbF) l.length l

/-- Outcome of the `cancel_async` request handler. -/
structure CancelOut where
  asyncs : List Async
  count : Nat
  errSet : Option Nat
deriving Repr

/-- `DECL_HANDLER(cancel_async)` with the handle already resolved to the
object `objId`; `cur` is the calling thread. -/
def req_cancel_async (env : Env) (objId : Nat) (only_thread : Bool) (cur : Nat)
    (iosbF : Nat) (l : List Async) : CancelOut :=
  let thrF : Option Nat := if only_thread then some cur else none
  let p := cancel_async env (some objId) thrF iosbF l
  { asyncs := p.1, count := p.2,
    errSet := if p.2 = 0 ∧ iosbF ≠ 0 then some STATUS_NOT_FOUND else none }

/-- Outcome of the `get_async_result` request handler. -/
structure GetResultOut where
  asyncs : List Async
  replyData : Option (List Nat × Nat)
  replySize : Option Nat
  err : Nat
deriving DecidableEq, Repr

/-- Replace the first list entry satisfying `p` by `f` of it. -/
def update_first (p : Async → Bool) (f : Async → Async) : List Async → List Async
  | [] => []
  | a :: r => if p a then f a :: r else a :: update_first p f r

/-- `DECL_HANDLER(get_async_result)`: take the iosb of the first async
whose `data.user` matches; fail with `INVALID_PARAMETER` when that iosb
is null (no match, or the match has no iosb); otherwise detach the output
buffer to the reply when `min(out_size, reply_max)` is nonzero, report
the byte count, and set the iosb status as the last-error. -/
def get_async_result (l : List Async) (user_arg reply_max : Nat) : GetResultOut :=
  match l.find? (fun a => a.data.user == user_arg) with
  | none => { asyncs := l, replyData := none, replySize := none,
              err := STATUS_INVALID_PARAMETER }
  | some a =>
    match a.iosb with
    | none => { asyncs := l, replyData := none, replySize := none,
                err := STATUS_INVALID_PARAMETER }
    | some i =>
      let sz := min i.out_size reply_max
      match i.out_data with
      | some d =>
        if sz ≠ 0 then
          { asyncs := update_first (fun x => x.data.user == user_arg)
              (fun x => { x with iosb := some { i with out_data := none } }) l,
            replyData := some (d, sz), replySize := some i.result, err := i.status }
        else
          { asyncs := l, replyData := none, replySize := some i.result, err := i.status }
      | none =>
        { asyncs := l, replyData := none, replySize := some i.result, err := i.status }

/-- The operations of the async state machine, as applied to one async;
used to state invariants over arbitrary operation sequences. -/
inductive AsyncOp where
  | term (s : Nat)
  | setRes (s t : Nat)
  | reqComplete (s r osz : Nat) (od : Option (List Nat))
  | handoffOp (fb : Bool) (e : Nat)
  | queueOp (q : Nat)
  | setPendingOp (sig : Bool)
  | setUnknownOp
  | setTimeoutOp (t : Option Nat) (s : Nat)
  | freeQueueOp
deriving Repr

/-- Apply one operation to an async; an operation whose C counterpart
would fault (failed assertion or null dereference) leaves the state
unchanged, since no post-state exists for it. -/
def apply_op (env : Env) (a : Async) : AsyncOp → Async
  | AsyncOp.term s => (async_terminate a s).1
  | AsyncOp.setRes s t =>
    match async_set_result_async env a s t with
    | some p => p.1
    | none => a
  | AsyncOp.reqComplete s r osz od =>
    match async_request_complete a s r osz od with
    | some p => p.1
    | none => a
  | AsyncOp.handoffOp fb e =>
    match async_handoff env a fb e with
    | some o => o.async
    | none => a
  | AsyncOp.queueOp q =>
    match queue_async q a with
    | some p => p.1
    | none => a
  | AsyncOp.setPendingOp sig => (set_async_pending a sig).1
  | AsyncOp.setUnknownOp => async_set_unknown_status a
  | AsyncOp.setTimeoutOp t s => (async_set_timeout a t s).1
  | AsyncOp.freeQueueOp => (free_async_queue_step env a).1

/-- Run a sequence of operations. -/
def run_ops (env : Env) : Async → List AsyncOp → Async
  | a, [] => a
  | a, op :: rest => run_ops env (apply_op env a op) rest

/-- Statuses injected by callers are terminal: `STATUS_PENDING` is never
passed to `async_terminate` or `async_request_complete`, and a client
reply of `PENDING` is only meaningful on an alerted async. -/
def op_ok (a : Async) : AsyncOp → Bool
  | AsyncOp.term s => s != STATUS_PENDING
  | AsyncOp.setRes s _ => s != STATUS_PENDING || a.alerted
  | AsyncOp.reqComplete s _ _ _ => s != STATUS_PENDING
  | _ => true

/-- All operations of a sequence are well-statused at their point of use. -/
def ops_ok (env : Env) : Async → List AsyncOp → Bool
  | _, [] => true
  | a, op :: rest => op_ok a op && ops_ok env (apply_op env a op) rest

/-- A pending iosb status implies the async is not terminated. -/
def pending_not_terminated (a : Async) : Bool :=
  match a.iosb with
  | some i => if i.status = STATUS_PENDING then !a.terminated else true
  | none => true

/-- A concrete collaborator environment for witnesses. -/
def env0 : Env :=
  { fdCompletion := fun _ => none, fdUser := fun f => f, fdOverlapped := fun _ => false }

/-- A concrete freshly-created async (fd 5, pending, not terminated). -/
def sampleAsync : Async :=
  { thread := 1, queue := none, fd := some 5, timeout := none, timeout_status := 0,
    event := none,
    data := { user := 7, iosb := 9, apc := 0, apc_context := 0, event := 0 },
    iosb := some { status := STATUS_PENDING, result := 0, in_size := 0, in_data := none,
                   out_size := 0, out_data := none },
    wait_handle := 0, signaled := false, pending := true, direct_result := false,
    alerted := false, terminated := false, unknown_status := false,
    completion := none, comp_key := 0, comp_flags := 0, completion_callback := none }

theorem async_terminate_fst_terminated (a : Async) (s : Nat) :
    (async_terminate a s).1.terminated = true := by
  by_cases h : a.terminated <;> simp [async_terminate, h]

theorem async_terminate_of_terminated (a : Async) (s : Nat) (h : a.terminated = true) :
    async_terminate a s = (a, []) := by
  simp [async_terminate, h]

theorem async_terminate_fst_fd (a : Async) (s : Nat) :
    (async_terminate a s).1.fd = a.fd := by
  by_cases h : a.terminated <;> simp [async_terminate, h]

theorem async_terminate_fst_queue (a : Async) (s : Nat) :
    (async_terminate a s).1.queue = a.queue := by
  by_cases h : a.terminated <;> simp [async_terminate, h]

theorem add_async_completion_fst_queue (env : Env) (a : Async) (cv st inf : Nat) :
    (add_async_completion env a cv st inf).1.queue = a.queue := by
  unfold add_async_completion
  rcases hc : a.completion with _ | c
  · rcases hf : a.fd with _ | f
    · simp [hc, hf]
    · rcases hk : env.fdCompletion f with _ | ck <;> simp [hc, hf, hk]
  · simp [hc]

theorem add_async_completion_fst_fd (env : Env) (a : Async) (cv st inf : Nat) :
    (add_async_completion env a cv st inf).1.fd = a.fd := by
  unfold add_async_completion
  rcases hc : a.completion with _ | c
  · rcases hf : a.fd with _ | f
    · simp [hc, hf]
    · rcases hk : env.fdCompletion f with _ | ck <;> simp [hc, hf, hk]
  · simp [hc]

/-- The finalize branch of `async_set_result` on a queued async always
ends by detaching: both the fd and the queue pointers are nulled. -/
theorem set_result_finalize_detach (env : Env) (a : Async) (s t : Nat)
    (hterm : a.terminated = true)
    (hnr : ¬(a.alerted = true ∧ s = STATUS_PENDING)) (hq : a.queue ≠ none) :
    (async_set_result_async env a s t).map (fun p => (p.1.fd, p.1.queue)) =
      some (none, none) := by
  have h1 : ¬(a.terminated = false) := by rw [hterm]; simp
  unfold async_set_result_async
  rw [if_neg h1, if_neg hnr]
  dsimp only
  split
  · split <;> simp [hq]
  · split
    · split <;>
        simp [add_async_completion_fst_queue, add_async_completion_fst_fd, hq]
    · split <;> simp [hq]

/-- C3: `async_terminate` is idempotent — a second call on the already
terminated async returns the state unchanged and makes no collaborator
call (no APC, no reselect). -/
theorem c3_async_terminate_idempotent (a : Async) (s s' : Nat) :
    async_terminate (async_terminate a s).1 s' = ((async_terminate a s).1, []) :=
  async_terminate_of_terminated _ s' (async_terminate_fst_terminated a s)

/-- C10: the public entry point `async_set_result` leaves any object
whose ops table is not `async_ops` untouched, returning without any
state change or collaborator call; the async-specific body (with its
`terminated` assertion) is reached only for genuine asyncs. -/
theorem c10_set_result_total (env : Env) (tag : Nat) (status total : Nat) :
    async_set_result env (ServerObject.otherObj tag) status total =
      some (ServerObject.otherObj tag, []) ∧
    (∀ a : Async, async_set_result env (ServerObject.asyncObj a) status total =
      (async_set_result_async env a status total).map
        (fun p => (ServerObject.asyncObj p.1, p.2))) := by
  exact ⟨rfl, fun a => rfl⟩

/-- C1 counterexample: `queue_async` does not null the fd field — on a
concrete async whose fd is 5, the fd after queueing is still 5, not
null (the C code even dereferences `async->fd` right after releasing
it, in `set_fd_signaled`). -/
theorem c1_counterexample :
    (queue_async 3 sampleAsync).map (fun p => p.1.fd) = some (some 5) ∧
    (some 5 : Option Nat) ≠ none := by
  refine ⟨rfl, by decide⟩

/-- C1 amended: the fd pointer of a live async is kept, not nulled, while
the async is queued: `queue_async` leaves `fd` unchanged (only the strong
reference moves to the queue) and records the queue; `fd` becomes null
exactly at teardown — `free_async_queue` nulls it on every entry, and the
final detach of `async_set_result` nulls it together with the queue
pointer. -/
theorem c1_amended :
    (∀ (q : Nat) (a : Async) (p : Async × List Ev), queue_async q a = some p →
        p.1.fd = a.fd ∧ p.1.queue = some q) ∧
    (∀ (env : Env) (a : Async),
        (free_async_queue_step env a).1.fd = none ∧
        (free_async_queue_step env a).1.queue = none) ∧
    (∀ (env : Env) (a : Async) (s t : Nat) (p : Async × List Ev),
        a.terminated = true → ¬(a.alerted = true ∧ s = STATUS_PENDING) →
        a.queue ≠ none →
        async_set_result_async env a s t = some p →
        p.1.fd = none ∧ p.1.queue = none) := by
  refine ⟨?_, ?_, ?_⟩
  · intro q a p h
    rcases hf : a.fd with _ | f
    · simp [queue_async, hf] at h
    · simp [queue_async, hf] at h
      subst h
      simp [hf]
  · intro env a
    constructor
    · show (async_terminate _ STATUS_HANDLES_CLOSED).1.fd = none
      rw [async_terminate_fst_fd]
    · rfl
  · intro env a s t p hterm hnotRestart hq h
    have hmain := set_result_finalize_detach env a s t hterm hnotRestart hq
    rw [h] at hmain
    simp only [Option.map_some'] at hmain
    exact ⟨congrArg Prod.fst (Option.some.inj hmain),
           congrArg Prod.snd (Option.some.inj hmain)⟩

theorem termIosb_result (i : Iosb) (s : Nat) : (termIosb i s).result = i.result := by
  unfold termIosb; split <;> rfl

theorem termIosb_out_data (i : Iosb) (s : Nat) : (termIosb i s).out_data = i.out_data := by
  unfold termIosb; split <;> rfl

theorem apc_events_reselect (b : Async) : apc_events (async_reselect b) = [] := by
  unfold async_reselect
  rcases b.queue with _ | q <;> rcases b.fd with _ | f <;> simp [apc_events]

theorem apc_events_append (l l' : List Ev) :
    apc_events (l ++ l') = apc_events l ++ apc_events l' := by
  simp [apc_events]

theorem apc_events_nil : apc_events [] = [] := rfl

theorem apc_events_cons_apc (tid : Nat) (c : ApcCall) (rest : List Ev) :
    apc_events (Ev.queueApc tid c :: rest) = (tid, c) :: apc_events rest := by
  simp [apc_events]

/-- C4: on a non-terminated async, `async_terminate` queues exactly one
`APC_ASYNC_IO` APC to the owning thread when `direct_result` is clear —
with status `ALERTED` when the iosb exists and holds a nonzero result or
output data, and the given status otherwise — and queues no APC at all
when `direct_result` is set. -/
theorem c4_terminate_apc (a : Async) (s : Nat) (h : a.terminated = false) :
    (a.direct_result = false →
      apc_events (async_terminate a s).2 =
        [(a.thread, ApcCall.asyncIo a.data.user a.data.iosb (effective_status a s))]) ∧
    (a.direct_result = true → apc_events (async_terminate a s).2 = []) := by
  constructor
  · intro hd
    rcases hi : a.iosb with _ | i
    · simp [async_terminate, h, hd, hi, effective_status, apc_events_append,
            apc_events_reselect, apc_events_cons_apc, apc_events_nil]
    · simp [async_terminate, h, hd, hi, effective_status, apc_events_append,
            apc_events_reselect, apc_events_cons_apc, apc_events_nil,
            termIosb_result, termIosb_out_data]
  · intro hd
    simp [async_terminate, h, hd, apc_events_append, apc_events_reselect,
          apc_events_nil]

/-- C5: on an alerted (hence terminated) async, `async_set_result` with
`PENDING` restarts: it returns the exact same state with only
`terminated` and `alerted` cleared (same iosb object, same queue and fd),
and its only collaborator call is the reselect — no APC, no completion
post, no event, no wake-up, no callback, no detach.  Consequently it is a
left inverse of the ALERTED-producing `async_terminate`, up to the iosb
status that the terminate wrote. -/
theorem c5_restart_left_inverse (env : Env) (a : Async) (t : Nat) :
    (a.alerted = true → a.terminated = true →
      async_set_result_async env a STATUS_PENDING t =
        some ({ a with terminated := false, alerted := false },
              async_reselect { a with terminated := false, alerted := false })) ∧
    (a.terminated = false → a.alerted = false →
      (async_set_result_async env (async_terminate a STATUS_ALERTED).1
          STATUS_PENDING t).map Prod.fst =
        some { a with iosb := (async_terminate a STATUS_ALERTED).1.iosb }) := by
  constructor
  · intro h1 h2
    have hne : ¬(a.terminated = false) := by rw [h2]; simp
    unfold async_set_result_async
    rw [if_neg hne, if_pos ⟨h1, rfl⟩]
  · intro h3 h4
    rcases a with ⟨th, qu, fd, tmo, tst, ev, da, io, wh, sg, pe, dr, al, te, un, co, ck, cf, cb⟩
    simp only at h3 h4
    subst h3; subst h4
    simp [async_terminate, async_set_result_async]

/-- C7: `async_wake_up` calls `async_terminate` with the given status on
every queued async in FIFO (head-first) order — the call log is the whole
queue in order — except that an `ALERTED` wake-up terminates only the
head entry and stops. -/
theorem c7_wake_up_fifo (l : List Async) (s : Nat) :
    (s ≠ STATUS_ALERTED →
      async_wake_up l s =
        (l.map (fun a => (async_terminate a s).1), l.map (fun a => (a, s)))) ∧
    (s = STATUS_ALERTED →
      async_wake_up l s =
        ((match l with
          | [] => []
          | a :: r => (async_terminate a s).1 :: r),
         (l.take 1).map (fun a => (a, s)))) := by
  induction l with
  | nil => constructor <;> intro h <;> simp [async_wake_up]
  | cons a r ih =>
    constructor
    · intro h
      simp [async_wake_up, h, ih.1 h]
    · intro h
      subst h
      simp [async_wake_up]

/-- Whatever branch `handoff_tail` takes, the reported error is the
status stored in the final state's iosb. -/
theorem handoff_tail_err (env : Env) (fb : Bool) (a2 : Async) (evs1 : List Ev)
    (rep : Option (List Nat × Nat)) (o : HandoffOut)
    (h : handoff_tail env fb a2 evs1 rep = some o) :
    ∃ i, o.async.iosb = some i ∧ o.err = i.status := by
  unfold handoff_tail at h
  split at h
  · exact Option.noConfusion h
  · rename_i i2 heq
    split at h
    · obtain rfl : _ = o := Option.some.inj h
      exact ⟨i2, heq, rfl⟩
    · dsimp only at h
      split at h <;>
        (obtain rfl : _ = o := Option.some.inj h; exact ⟨i2, heq, rfl⟩)

/-- C6: `async_handoff` applies its rules in order — with
`unknown_status` it sets last-error `PENDING` and returns the wait
handle; otherwise, when not pending and the incoming last-error is an NT
error, it closes the wait handle, zeroes the field and returns 0; and on
every path that reaches the end of the function the final last-error is
the (final) iosb status. -/
theorem c6_handoff_rules (env : Env) (a : Async) (fb : Bool) (e : Nat) :
    (a.unknown_status = true →
      async_handoff env a fb e =
        some { async := a, err := STATUS_PENDING, ret := a.wait_handle,
               result := none, reply := none, evs := [] }) ∧
    (a.unknown_status = false → a.pending = false → NT_ERROR e = true →
      async_handoff env a fb e =
        some { async := { a with wait_handle := 0 }, err := e, ret := 0,
               result := none, reply := none,
               evs := [Ev.closeHandleEv a.wait_handle] }) ∧
    (∀ o : HandoffOut,
      a.unknown_status = false → ¬(a.pending = false ∧ NT_ERROR e = true) →
      async_handoff env a fb e = some o →
      ∃ i, o.async.iosb = some i ∧ o.err = i.status) := by
  refine ⟨?_, ?_, ?_⟩
  · intro hu
    unfold async_handoff
    rw [if_pos hu]
  · intro hu hp hn
    have hu' : ¬(a.unknown_status = true) := by rw [hu]; simp
    unfold async_handoff
    rw [if_neg hu', if_pos ⟨hp, hn⟩]
  · intro o hu hnp h
    have hu' : ¬(a.unknown_status = true) := by rw [hu]; simp
    unfold async_handoff at h
    rw [if_neg hu', if_neg hnp] at h
    rcases hi : a.iosb with _ | i0 <;> rw [hi] at h
    · exact absurd h (by simp)
    · exact handoff_tail_err env _ _ _ _ o h

/-- A cancelled async is no longer a cancellation candidate (it is now
terminated), which is what makes the `goto restart` loop progress. -/
theorem cancel_candidate_after_cancel (env : Env) (objF thrF : Option Nat)
    (iosbF : Nat) (a : Async) :
    cancel_candidate env objF thrF iosbF (fd_cancel_async a).1 = false := by
  simp [cancel_candidate, fd_cancel_async, async_terminate_fst_terminated]

theorem cancel_pass_eq_none (P : Async → Bool) (l : List Async) :
    cancel_pass P l = none ↔ ∀ a ∈ l, P a = false := by
  induction l with
  | nil => simp [cancel_pass]
  | cons a r ih =>
    by_cases hp : P a
    · simp [cancel_pass, hp]
    · simp only [cancel_pass, hp, if_false, Bool.false_eq_true, Option.map_eq_none',
                 List.mem_cons]
      constructor
      · intro h b hb
        rcases hb with rfl | hb
        · exact Bool.eq_false_iff.mpr hp
        · exact (ih.mp h) b hb
      · intro h
        exact ih.mpr (fun b hb => h b (Or.inr hb))

theorem cancel_pass_eq_some (P : Async → Bool)
    (hPg : ∀ a, P a = true → P (fd_cancel_async a).1 = false)
    (l l' : List Async) (h : cancel_pass P l = some l') :
    l'.countP P + 1 = l.countP P ∧
    l'.map (fun a => if P a then (fd_cancel_async a).1 else a) =
      l.map (fun a => if P a then (fd_cancel_async a).1 else a) := by
  induction l generalizing l' with
  | nil => exact absurd h (by simp [cancel_pass])
  | cons a r ih =>
    by_cases hp : P a
    · rw [cancel_pass, if_pos hp] at h
      obtain rfl : _ = l' := Option.some.inj h
      constructor
      · simp [List.countP_cons, hp, hPg a hp]
      · simp [hp, hPg a hp]
    · rw [cancel_pass, if_neg hp] at h
      rcases hr : cancel_pass P r with _ | r''
      · rw [hr] at h; exact absurd h (by simp)
      · rw [hr] at h
        obtain rfl : _ = l' := Option.some.inj h
        obtain ⟨hc, hm⟩ := ih r'' hr
        constructor
        · simp [List.countP_cons, hp, hc]
        · simp [hp, hm]

theorem map_cancel_of_no_candidate (P : Async → Bool) (l : List Async)
    (h : ∀ a ∈ l, P a = false) :
    l.map (fun a => if P a then (fd_cancel_async a).1 else a) = l := by
  induction l with
  | nil => rfl
  | cons a r ih =>
    simp only [List.map_cons, h a (List.mem_cons_self a r), Bool.false_eq_true,
               if_false]
    rw [ih (fun b hb => h b (List.mem_cons_of_mem a hb))]

theorem cancel_loop_spec (P : Async → Bool)
    (hPg : ∀ a, P a = true → P (fd_cancel_async a).1 = false) :
    ∀ (fuel : Nat) (l : List Async), l.countP P ≤ fuel →
      cancel_loop P fuel l =
        (l.map (fun a => if P a then (fd_cancel_async a).1 else a), l.countP P) := by
  intro fuel
  induction fuel with
  | zero =>
    intro l hl
    have h0 : l.countP P = 0 := Nat.le_zero.mp hl
    have h0' : ∀ a ∈ l, P a = false :=
      fun b hb => Bool.eq_false_iff.mpr ((List.countP_eq_zero.mp h0) b hb)
    rw [cancel_loop, h0, map_cancel_of_no_candidate P l h0']
  | succ fuel ih =>
    intro l hl
    rcases hp : cancel_pass P l with _ | l'
    · have h0 : ∀ a ∈ l, P a = false := (cancel_pass_eq_none P l).mp hp
      have h0' : l.countP P = 0 := List.countP_eq_zero.mpr (by simpa using h0)
      rw [cancel_loop, hp, h0', map_cancel_of_no_candidate P l h0]
    · obtain ⟨hc, hm⟩ := cancel_pass_eq_some P hPg l l' hp
      have hl' : l'.countP P ≤ fuel := by omega
      rw [cancel_loop, hp]
      show ((cancel_loop P fuel l').1, (cancel_loop P fuel l').2 + 1) = _
      rw [ih l' hl']
      dsimp only
      rw [hm, hc]

/-- C8: the `cancel_async` request handler cancels — through
`fd_cancel_async` — exactly the non-terminated asyncs of the process list
that match every present filter (fd user object, the calling thread when
`only_thread`, the iosb cookie when nonzero); already-terminated asyncs
are untouched; the count of cancelled asyncs is returned, and
`NOT_FOUND` is set exactly when that count is zero and a nonzero iosb
cookie was supplied. -/
theorem c8_cancel_handler (env : Env) (objId cur : Nat) (only_thread : Bool)
    (iosbF : Nat) (l : List Async)
    (_hfd : ∀ a ∈ l, a.terminated = false → a.fd ≠ none) :
    (req_cancel_async env objId only_thread cur iosbF l).asyncs =
      l.map (fun a =>
        if cancel_candidate env (some objId)
             (if only_thread then some cur else none) iosbF a
        then (fd_cancel_async a).1 else a) ∧
    (req_cancel_async env objId only_thread cur iosbF l).count =
      l.countP (cancel_candidate env (some objId)
                  (if only_thread then some cur else none) iosbF) ∧
    ((req_cancel_async env objId only_thread cur iosbF l).errSet =
        some STATUS_NOT_FOUND ↔
      (l.countP (cancel_candidate env (some objId)
                   (if only_thread then some cur else none) iosbF) = 0 ∧
       iosbF ≠ 0)) := by
  have hloop := cancel_loop_spec
    (cancel_candidate env (some objId) (if only_thread then some cur else none) iosbF)
    (fun a _ => cancel_candidate_after_cancel env _ _ _ a)
    l.length l (List.countP_le_length _)
  refine ⟨?_, ?_, ?_⟩
  · show (cancel_async env _ _ _ l).1 = _
    rw [cancel_async, hloop]
  · show (cancel_async env _ _ _ l).2 = _
    rw [cancel_async, hloop]
  · show (if (cancel_async env _ _ _ l).2 = 0 ∧ iosbF ≠ 0
          then some STATUS_NOT_FOUND else none) = some STATUS_NOT_FOUND ↔ _
    rw [cancel_async, hloop]
    dsimp only
    constructor
    · intro h
      by_contra hcon
      rw [if_neg hcon] at h
      exact Option.noConfusion h
    · intro h
      rw [if_pos h]

/-- `sampleAsync` without an iosb, as created by `create_async` with a
null iosb argument. -/
def sampleNoIosb : Async := { sampleAsync with iosb := none }

/-- C9 counterexample: with a process list holding one async whose
`data.user` is 7 but whose iosb is null, `get_async_result(7)` finds a
matching async and nevertheless fails with `INVALID_PARAMETER` — the
claim's dichotomy (error only when no async matches) does not hold. -/
theorem c9_counterexample :
    (get_async_result [sampleNoIosb] 7 8).err = STATUS_INVALID_PARAMETER ∧
    (([sampleNoIosb] : List Async).find? (fun a => a.data.user == 7)).isSome = true := by
  exact ⟨rfl, rfl⟩

/-- C9 amended: `get_async_result` fails with `INVALID_PARAMETER` when no
async of the process matches `user_arg` **or** when the first matching
async has a null iosb; otherwise it reports the iosb's result as the
reply size and the iosb's status as the last-error, and it hands the
`out_data` buffer to the reply (nulling it on the iosb) exactly when the
buffer is non-null and `min(out_size, reply_max_size)` is nonzero —
with a zero minimum nothing is transferred and the buffer stays. -/
theorem c9_get_async_result_amended (l : List Async) (ua rmax : Nat) :
    (l.find? (fun a => a.data.user == ua) = none →
      get_async_result l ua rmax =
        { asyncs := l, replyData := none, replySize := none,
          err := STATUS_INVALID_PARAMETER }) ∧
    (∀ a, l.find? (fun a => a.data.user == ua) = some a → a.iosb = none →
      get_async_result l ua rmax =
        { asyncs := l, replyData := none, replySize := none,
          err := STATUS_INVALID_PARAMETER }) ∧
    (∀ a i, l.find? (fun a => a.data.user == ua) = some a → a.iosb = some i →
      (get_async_result l ua rmax).err = i.status ∧
      (get_async_result l ua rmax).replySize = some i.result ∧
      (min i.out_size rmax ≠ 0 → i.out_data ≠ none →
        (∃ d, i.out_data = some d ∧
          (get_async_result l ua rmax).replyData = some (d, min i.out_size rmax)) ∧
        (get_async_result l ua rmax).asyncs =
          update_first (fun x => x.data.user == ua)
            (fun x => { x with iosb := some { i with out_data := none } }) l) ∧
      ((min i.out_size rmax = 0 ∨ i.out_data = none) →
        (get_async_result l ua rmax).replyData = none ∧
        (get_async_result l ua rmax).asyncs = l)) := by
  refine ⟨?_, ?_, ?_⟩
  · intro hf
    rw [get_async_result, hf]
  · intro a hf hi
    rw [get_async_result, hf]
    dsimp only
    rw [hi]
  · intro a i hf hi
    rw [get_async_result, hf]
    dsimp only
    rw [hi]
    dsimp only
    rcases hd : i.out_data with _ | d <;> dsimp only
    · refine ⟨rfl, rfl, ?_, ?_⟩
      · intro _ hcon
        exact absurd rfl hcon
      · intro _
        exact ⟨rfl, rfl⟩
    · by_cases hm : min i.out_size rmax ≠ 0
      · rw [if_pos hm]
        refine ⟨rfl, rfl, ?_, ?_⟩
        · intro _ _
          exact ⟨⟨d, rfl, rfl⟩, rfl⟩
        · intro hz
          rcases hz with hz | hz
          · exact absurd hz hm
          · exact Option.noConfusion hz
      · rw [if_neg hm]
        refine ⟨rfl, rfl, ?_, ?_⟩
        · intro hz _
          exact absurd hz hm
        · intro _
          exact ⟨rfl, rfl⟩

theorem add_async_completion_fst_iosb (env : Env) (a : Async) (cv st inf : Nat) :
    (add_async_completion env a cv st inf).1.iosb = a.iosb := by
  unfold add_async_completion
  rcases hc : a.completion with _ | c
  · rcases hf : a.fd with _ | f
    · simp [hc, hf]
    · rcases hk : env.fdCompletion f with _ | ck <;> simp [hc, hf, hk]
  · simp [hc]

/-- `async_terminate` with a non-`PENDING` status preserves the invariant
that a pending iosb status implies a non-terminated async. -/
theorem terminate_pending_inv (a : Async) (s : Nat) (hs : s ≠ STATUS_PENDING)
    (hinv : pending_not_terminated a = true) :
    pending_not_terminated (async_terminate a s).1 = true := by
  by_cases ht : a.terminated = true
  · rw [async_terminate_of_terminated a s ht]
    exact hinv
  · rcases hi : a.iosb with _ | i
    · simp [async_terminate, ht, hi, pending_not_terminated]
    · by_cases hps : i.status = STATUS_PENDING
      · simp [async_terminate, ht, hi, pending_not_terminated, termIosb, hps, hs]
      · simp [async_terminate, ht, hi, pending_not_terminated, termIosb, hps]

/-- In the finalize branch, `async_set_result` stores the reported status
into the iosb (whatever fan-out happens in between). -/
theorem set_result_finalize_iosb (env : Env) (a : Async) (s t : Nat)
    (hterm : a.terminated = true) (hnr : ¬(a.alerted = true ∧ s = STATUS_PENDING)) :
    (async_set_result_async env a s t).map (fun p => p.1.iosb) =
      some (a.iosb.map (fun i => { i with status := s })) := by
  have h1 : ¬(a.terminated = false) := by rw [hterm]; simp
  unfold async_set_result_async
  rw [if_neg h1, if_neg hnr]
  dsimp only
  split
  · split <;> split <;> simp
  · split
    · split <;> split <;> simp [add_async_completion_fst_iosb]
    · split <;> split <;> simp

theorem handoff_detach_pending_inv (a1 : Async)
    (hinv : pending_not_terminated a1 = true) :
    pending_not_terminated (handoff_detach a1).1 = true := by
  unfold handoff_detach
  rcases hi : a1.iosb with _ | i <;> dsimp only
  · exact hinv
  · by_cases hps : i.status ≠ STATUS_PENDING
    · rw [if_pos hps]
      rcases hd : i.out_data with _ | d
      · exact hinv
      · simp [pending_not_terminated, hps]
    · rw [if_neg hps]
      exact hinv

theorem handoff_tail_pending_inv (env : Env) (fb : Bool) (a2 : Async)
    (evs1 : List Ev) (rep : Option (List Nat × Nat)) (o : HandoffOut)
    (h : handoff_tail env fb a2 evs1 rep = some o)
    (hinv : pending_not_terminated a2 = true) :
    pending_not_terminated o.async = true := by
  unfold handoff_tail at h
  split at h
  · exact Option.noConfusion h
  · split at h
    · obtain rfl : _ = o := Option.some.inj h
      exact hinv
    · dsimp only at h
      split at h <;>
        (obtain rfl : _ = o := Option.some.inj h; exact hinv)

/-- Every single operation of the state machine preserves the invariant,
provided its injected status is terminal (`op_ok`). -/
theorem apply_op_pending_inv (env : Env) (a : Async) (op : AsyncOp)
    (hok : op_ok a op = true) (hinv : pending_not_terminated a = true) :
    pending_not_terminated (apply_op env a op) = true := by
  cases op with
  | term s =>
    have hs : s ≠ STATUS_PENDING := by simpa [op_ok] using hok
    exact terminate_pending_inv a s hs hinv
  | setRes s t =>
    show pending_not_terminated
      (match async_set_result_async env a s t with
       | some p => p.1
       | none => a) = true
    rcases hsr : async_set_result_async env a s t with _ | p
    · exact hinv
    · by_cases hterm : a.terminated = true
      · by_cases hre : a.alerted = true ∧ s = STATUS_PENDING
        · -- restart branch: terminated is cleared, invariant trivial
          have h1 : ¬(a.terminated = false) := by rw [hterm]; simp
          rw [async_set_result_async] at hsr
          rw [if_neg h1, if_pos hre] at hsr
          obtain rfl : _ = p := Option.some.inj hsr
          simp only [pending_not_terminated]
          rcases a.iosb with _ | i
          · rfl
          · simp
        · -- finalize branch: the iosb now stores s, which is not PENDING
          have hs : s ≠ STATUS_PENDING := by
            rcases (by simpa [op_ok] using hok : s ≠ STATUS_PENDING ∨ a.alerted = true)
              with h | h
            · exact h
            · intro hcon
              exact hre ⟨h, hcon⟩
          have hio := set_result_finalize_iosb env a s t hterm hre
          rw [hsr] at hio
          simp only [Option.map_some'] at hio
          have hio' : p.1.iosb = a.iosb.map (fun i => { i with status := s }) :=
            Option.some.inj hio
          simp only [pending_not_terminated, hio']
          rcases a.iosb with _ | i
          · rfl
          · simp [hs]
      · rw [async_set_result_async] at hsr
        rw [if_pos (by revert hterm; cases a.terminated <;> simp)] at hsr
        exact Option.noConfusion hsr
  | reqComplete s r osz od =>
    show pending_not_terminated
      (match async_request_complete a s r osz od with
       | some p => p.1
       | none => a) = true
    have hs : s ≠ STATUS_PENDING := by simpa [op_ok] using hok
    rcases hrc : async_request_complete a s r osz od with _ | p
    · exact hinv
    · rw [async_request_complete] at hrc
      rcases hi : a.iosb with _ | i <;> rw [hi] at hrc
      · exact Option.noConfusion hrc
      · dsimp only at hrc
        by_cases hps : i.status ≠ STATUS_PENDING
        · rw [if_pos hps] at hrc
          obtain rfl : _ = p := Option.some.inj hrc
          exact hinv
        · rw [if_neg hps] at hrc
          obtain rfl : _ = p := Option.some.inj hrc
          refine terminate_pending_inv _ s hs ?_
          simp [pending_not_terminated, hs]
  | handoffOp fb e =>
    show pending_not_terminated
      (match async_handoff env a fb e with
       | some o => o.async
       | none => a) = true
    rcases hh : async_handoff env a fb e with _ | o
    · exact hinv
    · rw [async_handoff] at hh
      split at hh
      · obtain rfl : _ = o := Option.some.inj hh
        exact hinv
      · split at hh
        · obtain rfl : _ = o := Option.some.inj hh
          exact hinv
        · split at hh
          · exact Option.noConfusion hh
          · dsimp only at hh
            refine handoff_tail_pending_inv env fb _ _ _ o hh ?_
            have hinv1 : pending_not_terminated
                (if e ≠ STATUS_PENDING then async_terminate a e else (a, [])).1 = true := by
              by_cases he : e ≠ STATUS_PENDING
              · rw [if_pos he]
                exact terminate_pending_inv a e he hinv
              · rw [if_neg he]
                exact hinv
            by_cases hep : e = STATUS_PENDING
            · rw [if_pos hep]
              exact handoff_detach_pending_inv _ hinv1
            · rw [if_neg hep]
              exact hinv1
  | queueOp q =>
    show pending_not_terminated
      (match queue_async q a with
       | some p => p.1
       | none => a) = true
    rcases hf : a.fd with _ | f
    · have hq : queue_async q a = none := by simp [queue_async, hf]
      rw [hq]
      exact hinv
    · have hq : queue_async q a =
          some ({ a with queue := some q }, [Ev.setFdSignaledEv f 0]) := by
        simp [queue_async, hf]
      rw [hq]
      exact hinv
  | setPendingOp sig =>
    show pending_not_terminated (set_async_pending a sig).1 = true
    unfold set_async_pending
    split
    · split
      · exact hinv
      · exact hinv
    · exact hinv
  | setUnknownOp => exact hinv
  | setTimeoutOp tm s =>
    exact hinv
  | freeQueueOp =>
    show pending_not_terminated (free_async_queue_step env a).1 = true
    have hstep : ∀ b : Async, b.iosb = a.iosb → b.terminated = a.terminated →
        pending_not_terminated b = true := by
      intro b h1 h2
      unfold pending_not_terminated at hinv ⊢
      rw [h1, h2]
      exact hinv
    unfold free_async_queue_step
    dsimp only
    refine terminate_pending_inv _ STATUS_HANDLES_CLOSED (by decide) (hstep _ ?_ ?_) <;>
      (rcases hc : a.completion with _ | c
       · rcases hf : a.fd with _ | f
         · rfl
         · rcases hk : env.fdCompletion f with _ | ck <;> simp [hc, hf, hk]
       · simp [hc])

/-- C2 counterexample: terminate a pending async with `ALERTED`, then let
the client reply `PENDING` (the restart path of `async_set_result`).  The
restart clears `terminated` and `alerted` but leaves the iosb status at
`ALERTED`: the async is now non-terminated with a non-`PENDING` iosb
status, outside the claim's single exception window (which requires
`terminated == 1`). -/
theorem c2_counterexample :
    (run_ops env0 sampleAsync
        [AsyncOp.term STATUS_ALERTED, AsyncOp.setRes STATUS_PENDING 0]).terminated
      = false ∧
    (run_ops env0 sampleAsync
        [AsyncOp.term STATUS_ALERTED, AsyncOp.setRes STATUS_PENDING 0]).iosb =
      some { status := STATUS_ALERTED, result := 0, in_size := 0, in_data := none,
             out_size := 0, out_data := none } ∧
    STATUS_ALERTED ≠ STATUS_PENDING := by
  decide

/-- C2 amended: only one direction of the claimed equivalence holds over
arbitrary operation sequences — a `PENDING` iosb status implies the async
is not terminated (equivalently, a terminated async never has a `PENDING`
iosb; in the alerted window the status is `ALERTED`).  The converse fails
after a restart: clearing `terminated` does not restore the status to
`PENDING`, it stays `ALERTED`.  The sequences range over all modelled
operations whose injected statuses are terminal (`ops_ok`). -/
theorem c2_amended_pending_invariant (env : Env) (a : Async) (ops : List AsyncOp)
    (hok : ops_ok env a ops = true) (hinv : pending_not_terminated a = true) :
    pending_not_terminated (run_ops env a ops) = true := by
  induction ops generalizing a with
  | nil => exact hinv
  | cons op rest ih =>
    simp only [ops_ok, Bool.and_eq_true] at hok
    exact ih (apply_op env a op) hok.2 (apply_op_pending_inv env a op hok.1 hinv)

/-- An async sitting in the alerted window. -/
def sampleAlerted : Async := { sampleAsync with terminated := true, alerted := true }

/-- A terminated async still sitting on queue 3. -/
def sampleFinal : Async := { sampleAsync with terminated := true, queue := some 3 }

/-- An async whose initial status is still unknown. -/
def sampleUnknown : Async := { sampleAsync with unknown_status := true }

/-- An async past a failed synchronous attempt (`pending == 0`). -/
def samplePend0 : Async := { sampleAsync with pending := false }

theorem c1_amended_witness :
    (({ sampleAsync with queue := some 3 }, ([Ev.setFdSignaledEv 5 0] : List Ev)).1.fd
        = sampleAsync.fd ∧
     ({ sampleAsync with queue := some 3 }, ([Ev.setFdSignaledEv 5 0] : List Ev)).1.queue
        = some 3) ∧
    ((free_async_queue_step env0 sampleAsync).1.fd = none ∧
     (free_async_queue_step env0 sampleAsync).1.queue = none) ∧
    (((async_set_result_async env0 sampleFinal STATUS_SUCCESS 0).get (by decide)).1.fd
        = none ∧
     ((async_set_result_async env0 sampleFinal STATUS_SUCCESS 0).get (by decide)).1.queue
        = none) := by
  refine ⟨?_, ?_, ?_⟩
  · exact c1_amended.1 3 sampleAsync _ (by decide)
  · exact c1_amended.2.1 env0 sampleAsync
  · exact c1_amended.2.2 env0 sampleFinal STATUS_SUCCESS 0 _ (by decide) (by decide)
      (by decide) (Option.some_get _).symm

theorem c2_amended_witness :
    ops_ok env0 sampleAsync
      [AsyncOp.term STATUS_ALERTED, AsyncOp.setRes STATUS_PENDING 0] = true ∧
    pending_not_terminated sampleAsync = true ∧
    pending_not_terminated (run_ops env0 sampleAsync
      [AsyncOp.term STATUS_ALERTED, AsyncOp.setRes STATUS_PENDING 0]) = true :=
  ⟨by decide, by decide,
   c2_amended_pending_invariant env0 sampleAsync
     [AsyncOp.term STATUS_ALERTED, AsyncOp.setRes STATUS_PENDING 0]
     (by decide) (by decide)⟩

theorem c4_witness :
    sampleAsync.terminated = false ∧
    ((sampleAsync.direct_result = false →
       apc_events (async_terminate sampleAsync STATUS_CANCELLED).2 =
         [(sampleAsync.thread,
           ApcCall.asyncIo sampleAsync.data.user sampleAsync.data.iosb
             (effective_status sampleAsync STATUS_CANCELLED))]) ∧
     (sampleAsync.direct_result = true →
       apc_events (async_terminate sampleAsync STATUS_CANCELLED).2 = [])) :=
  ⟨rfl, c4_terminate_apc sampleAsync STATUS_CANCELLED rfl⟩

theorem c5_witness :
    (async_set_result_async env0 sampleAlerted STATUS_PENDING 0 =
      some ({ sampleAlerted with terminated := false, alerted := false },
            async_reselect { sampleAlerted with terminated := false, alerted := false })) ∧
    ((async_set_result_async env0 (async_terminate sampleAsync STATUS_ALERTED).1
        STATUS_PENDING 0).map Prod.fst =
      some { sampleAsync with iosb := (async_terminate sampleAsync STATUS_ALERTED).1.iosb }) :=
  ⟨(c5_restart_left_inverse env0 sampleAlerted 0).1 rfl rfl,
   (c5_restart_left_inverse env0 sampleAsync 0).2 rfl rfl⟩

theorem c6_witness :
    (async_handoff env0 sampleUnknown false STATUS_SUCCESS =
      some { async := sampleUnknown, err := STATUS_PENDING,
             ret := sampleUnknown.wait_handle, result := none, reply := none,
             evs := [] }) ∧
    (async_handoff env0 samplePend0 false STATUS_CANCELLED =
      some { async := { samplePend0 with wait_handle := 0 }, err := STATUS_CANCELLED,
             ret := 0, result := none, reply := none,
             evs := [Ev.closeHandleEv samplePend0.wait_handle] }) ∧
    (∃ i, ((async_handoff env0 sampleAsync false STATUS_CANCELLED).get
             (by decide)).async.iosb = some i ∧
          ((async_handoff env0 sampleAsync false STATUS_CANCELLED).get
             (by decide)).err = i.status) :=
  ⟨(c6_handoff_rules env0 sampleUnknown false STATUS_SUCCESS).1 rfl,
   (c6_handoff_rules env0 samplePend0 false STATUS_CANCELLED).2.1 rfl rfl (by decide),
   (c6_handoff_rules env0 sampleAsync false STATUS_CANCELLED).2.2 _ rfl
     (by decide) (Option.some_get _).symm⟩

theorem c7_witness :
    (async_wake_up [sampleAsync, sampleAlerted] STATUS_CANCELLED =
      (([sampleAsync, sampleAlerted] : List Async).map
         (fun a => (async_terminate a STATUS_CANCELLED).1),
       ([sampleAsync, sampleAlerted] : List Async).map
         (fun a => (a, STATUS_CANCELLED)))) ∧
    (async_wake_up [sampleAsync, sampleAlerted] STATUS_ALERTED =
      ((async_terminate sampleAsync STATUS_ALERTED).1 :: [sampleAlerted],
       (([sampleAsync, sampleAlerted] : List Async).take 1).map
         (fun a => (a, STATUS_ALERTED)))) :=
  ⟨(c7_wake_up_fifo [sampleAsync, sampleAlerted] STATUS_CANCELLED).1 (by decide),
   (c7_wake_up_fifo [sampleAsync, sampleAlerted] STATUS_ALERTED).2 rfl⟩

theorem c8_witness :
    (req_cancel_async env0 5 false 1 0 [sampleAsync]).asyncs =
      ([sampleAsync] : List Async).map
        (fun a => if cancel_candidate env0 (some 5)
                       (if false then some 1 else none) 0 a
                  then (fd_cancel_async a).1 else a) ∧
    (req_cancel_async env0 5 false 1 0 [sampleAsync]).count =
      ([sampleAsync] : List Async).countP
        (cancel_candidate env0 (some 5) (if false then some 1 else none) 0) ∧
    ((req_cancel_async env0 5 false 1 0 [sampleAsync]).errSet =
        some STATUS_NOT_FOUND ↔
      (([sampleAsync] : List Async).countP
          (cancel_candidate env0 (some 5) (if false then some 1 else none) 0) = 0 ∧
       (0 : Nat) ≠ 0)) :=
  c8_cancel_handler env0 5 1 false 0 [sampleAsync] (by decide)

theorem c9_amended_witness :
    (get_async_result [sampleAsync] 8 4 =
      { asyncs := [sampleAsync], replyData := none, replySize := none,
        err := STATUS_INVALID_PARAMETER }) ∧
    (get_async_result [sampleNoIosb] 7 4 =
      { asyncs := [sampleNoIosb], replyData := none, replySize := none,
        err := STATUS_INVALID_PARAMETER }) ∧
    ((get_async_result [sampleAsync] 7 4).err =
       STATUS_PENDING ∧
     (get_async_result [sampleAsync] 7 4).replySize = some 0) := by
  refine ⟨?_, ?_, ?_⟩
  · exact (c9_get_async_result_amended [sampleAsync] 8 4).1 rfl
  · exact (c9_get_async_result_amended [sampleNoIosb] 7 4).2.1 sampleNoIosb rfl rfl
  · have h := (c9_get_async_result_amended [sampleAsync] 7 4).2.2 sampleAsync
      { status := STATUS_PENDING, result := 0, in_size := 0, in_data := none,
        out_size := 0, out_data := none } rfl rfl
    exact ⟨h.1, h.2.1⟩

end WineAsync
